import Mathlib

/-!
Verification of the react-grab feedback demo.

Shallow embedding of the core logic of the repository:
* `buildSelector`, `createElementSnapshot`, `extractComponentName`
  (pure DOM helpers shared by the playground and the Remix variant),
* the local-storage `feedbackService` (`list` / `create` / `updateStatus`),
* the token-guarded draft controller used in `onElementSelect`.

Conventions of the embedding:
* DOM elements are modelled by the inductive `Elem`; the fields an
  element may or may not expose (`tagName`, `textContent`, the
  HTMLElement-only `id`/`classList`/`outerHTML`) are `Option`s.
* JavaScript strings are Lean `String`s (lists of characters); `slice`
  becomes `List.take` on the character list.
* ISO timestamp strings are modelled by their `Date.getTime()` value,
  a `Nat`, which is order-isomorphic to the ISO strings the code
  compares through `new Date(...).getTime()`.
* `JSON.parse`/`localStorage` outcomes are modelled by the inductive
  `StorageContent` (absent, unparseable, non-array, or a record list).
-/

namespace ReactGrab

/-- `String.prototype.toLowerCase()`: lower-case every character (the
strings involved are ASCII, where JavaScript and `Char.toLower`
agree). -/
def jsToLower (s : String) : String :=
  String.mk (s.data.map Char.toLower)

/-- The HTMLElement-only properties read by the code
(`id`, `classList`, `outerHTML`). -/
structure HtmlProps where
  id : String
  classList : List String
  outerHTML : String
deriving Repr, DecidableEq

/-- A DOM element as seen by the code: an optional tag name, optional
HTMLElement properties (present exactly when `element instanceof
HTMLElement`), optional text content, and an optional parent element. -/
inductive Elem : Type where
  | node (tagName : Option String) (htmlProps : Option HtmlProps)
      (textContent : Option String) (parentElement : Option Elem) : Elem

def Elem.tagName : Elem → Option String
  | .node t _ _ _ => t

def Elem.htmlProps : Elem → Option HtmlProps
  | .node _ h _ _ => h

def Elem.textContent : Elem → Option String
  | .node _ _ tc _ => tc

def Elem.parentElement : Elem → Option Elem
  | .node _ _ _ p => p

/-- `current.tagName?.toLowerCase() ?? ""` (the fallback used in
`buildSelector`). -/
def tagLower (e : Elem) : String :=
  (e.tagName.map jsToLower).getD ""

/-- `element.tagName?.toLowerCase() ?? "unknown"` (the fallback used in
`createElementSnapshot`). -/
def tagLowerUnknown (e : Elem) : String :=
  (e.tagName.map jsToLower).getD "unknown"

/-- `Array.prototype.join(sep)` on a list of strings. -/
def joinSep (sep : String) : List String → String
  | [] => ""
  | [x] => x
  | x :: y :: rest => x ++ sep ++ joinSep sep (y :: rest)

/-- The `while (current && parts.length < 5)` loop of `buildSelector`:
one part is pushed per iteration, so `parts.length` equals the number of
nodes visited so far; the `Nat` argument is the remaining budget.
For an HTMLElement with a non-empty `id` the loop pushes `tag#id` and
`break`s; otherwise it pushes `tag` plus up to two non-empty class
suffixes and moves to `parentElement`. -/
def selectorParts : Elem → Nat → List String
  | _, 0 => []
  | .node t hp _ parent, Nat.succ n =>
    let tag := ((t.map jsToLower).getD "")
    match hp with
    | some h =>
      if h.id ≠ "" then
        [tag ++ "#" ++ h.id]
      else
        let classes := ((h.classList.filter (· ≠ "")).take 2).map (fun c => "." ++ c)
        let suffix := if classes.length > 0 then joinSep "" classes else ""
        (tag ++ suffix) ::
          (match parent with
           | none => []
           | some p => selectorParts p n)
    | none =>
      tag ::
        (match parent with
         | none => []
         | some p => selectorParts p n)

/-- `buildSelector` from the source: collect up to 5 ancestor parts
(self first), then `parts.reverse().join(" > ")`. -/
def buildSelector (element : Elem) : String :=
  joinSep " > " (selectorParts element 5).reverse

/-- JavaScript `\s` for the whitespace characters relevant here
(ASCII whitespace; the inputs of this code are ASCII). -/
def isJsSpace (c : Char) : Bool :=
  c == ' ' || c == '\t' || c == '\n' || c == '\x0d' || c == '\x0b' || c == '\x0c'

/-- JavaScript `\w`, i.e. `[A-Za-z0-9_]`. -/
def isWordChar (c : Char) : Bool :=
  c.isAlpha || c.isDigit || c == '_'

/-- `[A-Z]`. -/
def isUpperAscii (c : Char) : Bool :=
  c.isUpper

/-- `[\w.]`. -/
def isWordDot (c : Char) : Bool :=
  isWordChar c || c == '.'

/-- `String.prototype.trim()`: strip leading and trailing whitespace. -/
def jsTrim (s : List Char) : List Char :=
  (((s.dropWhile isJsSpace).reverse).dropWhile isJsSpace).reverse

/-- `replace(/\s+/g, " ")`: each maximal whitespace run becomes one
space.  The boolean records whether the previous character was part of a
whitespace run already replaced. -/
def collapseWs : Bool → List Char → List Char
  | _, [] => []
  | prevSpace, c :: cs =>
    if isJsSpace c then
      if prevSpace then collapseWs true cs
      else ' ' :: collapseWs true cs
    else c :: collapseWs false cs

/-- Attempt to match `in\s+([A-Z][\w.]*)` at the head of the character
list, returning the capture group.  `\s+` is followed by `[A-Z]`, which
is disjoint from `\s`, so greedy matching needs no backtracking. -/
def tryMatchAt : List Char → Option String
  | 'i' :: 'n' :: rest =>
    let spaces := rest.takeWhile isJsSpace
    let rest2 := rest.dropWhile isJsSpace
    if spaces.isEmpty then none
    else
      match rest2 with
      | [] => none
      | c :: rest3 =>
        if isUpperAscii c then
          some (String.mk (c :: rest3.takeWhile isWordDot))
        else none
  | _ => none

/-- Leftmost match of `/\bin\s+([A-Z][\w.]*)/`: scan positions left to
right; the pattern starts with the word character `i`, so the word
boundary `\b` holds exactly when the preceding character is not a word
character (or the position is the start of the string). -/
def findMatch : Bool → List Char → Option String
  | _, [] => none
  | prevIsWord, c :: cs =>
    match if prevIsWord then none else tryMatchAt (c :: cs) with
    | some r => some r
    | none => findMatch (isWordChar c) cs

/-- `extractComponentName` from the source: first match of
`/\bin\s+([A-Z][\w.]*)/`, rejecting an empty candidate, the literal
`<anonymous>`, and (case-insensitively) `server`. -/
def extractComponentName (context : String) : Option String :=
  match findMatch false context.data with
  | none => none
  | some candidate =>
    if candidate = "" ∨ candidate = "<anonymous>" ∨ jsToLower candidate = "server"
    then none
    else some candidate

/-- The snapshot produced on element selection. -/
structure ElementSnapshot where
  selector : String
  elementLabel : String
  tagName : String
  textPreview : String
  htmlPreview : String
  pageUrl : String
deriving Repr, DecidableEq

/-- The `htmlPreview` local of `createElementSnapshot`: the element's
`outerHTML` (HTMLElements with a truthy `outerHTML` only), truncated to
400 characters plus an ellipsis when longer, or the synthetic
`<tag />`.  `outerHTML.slice(0, 400)` becomes `List.take` on the
character list. -/
def snapshotHtmlPreview (element : Elem) : String :=
  match element.htmlProps with
  | some h =>
    if h.outerHTML ≠ "" then
      if h.outerHTML.length > 400 then
        String.mk (h.outerHTML.data.take 400) ++ "..."
      else h.outerHTML
    else "<" ++ tagLowerUnknown element ++ " />"
  | none => "<" ++ tagLowerUnknown element ++ " />"

/-- The `textContent` local of `createElementSnapshot`:
`element.textContent?.trim().replace(/\s+/g, " ") ?? ""`. -/
def snapshotTextContent (element : Elem) : String :=
  match element.textContent with
  | some tc => String.mk (collapseWs false (jsTrim tc.data))
  | none => ""

/-- The `textPreview` local of `createElementSnapshot`: the collapsed
text truncated to 120 characters plus an ellipsis when longer. -/
def snapshotTextPreview (element : Elem) : String :=
  if (snapshotTextContent element).length > 120 then
    String.mk ((snapshotTextContent element).data.take 120) ++ "..."
  else snapshotTextContent element

/-- `createElementSnapshot` from the source.  `window.location.href` is
passed in as `pageUrl`.  The label joins `["<tag>"]` plus the truthy
text preview with `" · "`. -/
def createElementSnapshot (element : Elem) (pageUrl : String) : ElementSnapshot :=
  let tagName := tagLowerUnknown element
  let textPreview := snapshotTextPreview element
  { selector := buildSelector element
    elementLabel :=
      if textPreview ≠ "" then "<" ++ tagName ++ ">" ++ " · " ++ textPreview
      else "<" ++ tagName ++ ">"
    tagName := tagName
    textPreview := textPreview
    htmlPreview := snapshotHtmlPreview element
    pageUrl := pageUrl }

/-- The four feedback statuses. -/
inductive FeedbackStatus : Type where
  | pending
  | in_progress
  | resolved
  | invalid
deriving Repr, DecidableEq

/-- A persisted feedback record.  `createdAt`/`updatedAt` are the
`Date.getTime()` values of the ISO timestamps the code stores. -/
structure FeedbackRecord where
  id : String
  status : FeedbackStatus
  elementLabel : String
  selector : String
  tagName : String
  textPreview : String
  context : String
  pageUrl : String
  htmlPreview : String
  feedbackText : String
  componentName : Option String
  createdAt : Nat
  updatedAt : Nat
deriving Repr, DecidableEq

/-- The input of `feedbackService.create`. -/
structure FeedbackCreateInput where
  elementLabel : String
  selector : String
  tagName : String
  textPreview : String
  context : String
  pageUrl : String
  htmlPreview : String
  feedbackText : String
  componentName : Option String
deriving Repr, DecidableEq

/-- The state of the `localStorage` slot under the storage key, by the
outcome `readFromStorage` distinguishes: no stored value (or an empty
string, both falsy), a raw value `JSON.parse` throws on, a parse result
that is not an array, or a parsed record list. -/
inductive StorageContent : Type where
  | absent
  | unparseable
  | nonArray
  | records (rs : List FeedbackRecord)
deriving Repr, DecidableEq

/-- `readFromStorage` from the source: every outcome other than a parsed
array degrades to the empty list (missing key, thrown `JSON.parse`, and
non-array parse results are all caught or filtered). -/
def readFromStorage : StorageContent → List FeedbackRecord
  | .absent => []
  | .unparseable => []
  | .nonArray => []
  | .records rs => rs

/-- `persist` from the source: serialize the record list back into the
storage slot. -/
def persist (records : List FeedbackRecord) : StorageContent :=
  .records records

/-- The comparator of `feedbackService.list`:
`new Date(second.createdAt).getTime() - new Date(first.createdAt).getTime()`
sorts records with larger `createdAt` first (descending). -/
def createdAtDesc (first second : FeedbackRecord) : Prop :=
  second.createdAt ≤ first.createdAt

instance : DecidableRel createdAtDesc :=
  fun a b => inferInstanceAs (Decidable (b.createdAt ≤ a.createdAt))

instance : IsTotal FeedbackRecord createdAtDesc :=
  ⟨fun a b => (Nat.le_total b.createdAt a.createdAt).imp id id⟩

instance : IsTrans FeedbackRecord createdAtDesc :=
  ⟨fun _ _ _ hab hbc => Nat.le_trans hbc hab⟩

namespace feedbackService

/-- `feedbackService.list`: read the stored records and sort them by
`createdAt` descending (a stable comparator-respecting sort, modelled by
insertion sort). -/
def list (c : StorageContent) : List FeedbackRecord :=
  List.insertionSort createdAtDesc (readFromStorage c)

/-- The record literal built by `feedbackService.create`:
`{ id, status: "pending", createdAt: timestamp, updatedAt: timestamp, ...input }`.
`FeedbackCreateInput` has none of the four generated keys, so the spread
overrides nothing. -/
def mkRecord (input : FeedbackCreateInput) (id : String) (now : Nat) : FeedbackRecord :=
  { id := id
    status := .pending
    createdAt := now
    updatedAt := now
    elementLabel := input.elementLabel
    selector := input.selector
    tagName := input.tagName
    textPreview := input.textPreview
    context := input.context
    pageUrl := input.pageUrl
    htmlPreview := input.htmlPreview
    feedbackText := input.feedbackText
    componentName := input.componentName }

/-- `feedbackService.create`: build the record, persist
`[record, ...records]`, return the record.  The generated id and the
current time are passed in (`createId()` / `new Date()`). -/
def create (c : StorageContent) (input : FeedbackCreateInput) (id : String)
    (now : Nat) : FeedbackRecord × StorageContent :=
  let record := mkRecord input id now
  (record, persist (record :: readFromStorage c))

/-- `records.findIndex(r => r.id === id)` followed by
`records[index] = updated`: update the first record whose id matches,
returning the updated record and the new list, or `none` when the id is
absent. -/
def updateFirst (id : String) (status : FeedbackStatus) (now : Nat) :
    List FeedbackRecord → Option (FeedbackRecord × List FeedbackRecord)
  | [] => none
  | r :: rs =>
    if r.id = id then
      let updated : FeedbackRecord := { r with status := status, updatedAt := now }
      some (updated, updated :: rs)
    else
      match updateFirst id status now rs with
      | none => none
      | some (u, rs2) => some (u, r :: rs2)

/-- `feedbackService.updateStatus`: look up by id; on a miss return the
explicit `null` signal without touching storage; on a hit replace the
record (new `status`, `updatedAt = now`), persist, and return it. -/
def updateStatus (c : StorageContent) (id : String) (status : FeedbackStatus)
    (now : Nat) : Option FeedbackRecord × StorageContent :=
  match updateFirst id status now (readFromStorage c) with
  | none => (none, c)
  | some (u, rs) => (some u, persist rs)

end feedbackService

/-- The draft attached to the currently selected element. -/
structure FeedbackDraft where
  selector : String
  elementLabel : String
  tagName : String
  textPreview : String
  htmlPreview : String
  pageUrl : String
  context : String
  componentName : Option String
  feedbackText : String
  isContextPending : Bool
deriving Repr, DecidableEq

/-- The state owned by the draft controller: the single live draft
(`draft` React state) and the generation token (`contextTokenRef`). -/
structure ControllerState where
  draft : Option FeedbackDraft
  token : Nat
deriving Repr, DecidableEq

/-- The `setDraft` updater run synchronously on element selection:
install the new snapshot as the draft, with the HTML preview as the
placeholder context, `componentName` carried over from the previous
draft (`previous?.componentName ?? null`), `feedbackText` preserved only
when the previous draft exists and has the same selector, and
`isContextPending` raised. -/
def selectDraftUpdate (snapshot : ElementSnapshot) (previous : Option FeedbackDraft) :
    FeedbackDraft :=
  let preserved :=
    match previous with
    | some p => if p.selector = snapshot.selector then p.feedbackText else ""
    | none => ""
  { selector := snapshot.selector
    elementLabel := snapshot.elementLabel
    tagName := snapshot.tagName
    textPreview := snapshot.textPreview
    htmlPreview := snapshot.htmlPreview
    pageUrl := snapshot.pageUrl
    context := snapshot.htmlPreview
    componentName := (previous.map (·.componentName)).getD none
    feedbackText := preserved
    isContextPending := true }

/-- `onElementSelect` up to the point the async describe call is issued:
increment the generation token, install the new draft, and return the
token value captured by the pending call. -/
def onSelect (s : ControllerState) (snapshot : ElementSnapshot) :
    ControllerState × Nat :=
  let newToken := s.token + 1
  ({ draft := some (selectDraftUpdate snapshot s.draft), token := newToken },
    newToken)

/-- The `.then` continuation of the describe call: discard the result if
the captured token is stale, or if the installed draft is gone or its
selector no longer matches the snapshot the call was issued for;
otherwise merge the resolved context, the extracted component name, and
clear `isContextPending`. -/
def onResolveSuccess (s : ControllerState) (captured : Nat)
    (snapSelector : String) (contextText : String) : ControllerState :=
  if s.token ≠ captured then s
  else
    match s.draft with
    | none => s
    | some previous =>
      if previous.selector ≠ snapSelector then s
      else
        { s with
          draft := some
            { previous with
              context := contextText
              componentName := extractComponentName contextText
              isContextPending := false } }

/-- The `.catch` continuation of the describe call: same staleness
checks; when they pass, clear only `isContextPending`. -/
def onResolveFailure (s : ControllerState) (captured : Nat)
    (snapSelector : String) : ControllerState :=
  if s.token ≠ captured then s
  else
    match s.draft with
    | none => s
    | some previous =>
      if previous.selector ≠ snapSelector then s
      else { s with draft := some { previous with isContextPending := false } }

/-! ### Helper lemmas about the draft controller -/

theorem onResolveSuccess_token (s : ControllerState) (captured : Nat)
    (sel ctx : String) : (onResolveSuccess s captured sel ctx).token = s.token := by
  unfold onResolveSuccess
  split
  · rfl
  · split
    · rfl
    · split
      · rfl
      · rfl

theorem onResolveSuccess_stale (s : ControllerState) (captured : Nat)
    (sel ctx : String) (h : s.token ≠ captured) :
    onResolveSuccess s captured sel ctx = s := by
  unfold onResolveSuccess
  simp [h]

theorem onResolveSuccess_fresh (s : ControllerState) (captured : Nat)
    (sel ctx : String) (d : FeedbackDraft) (htok : s.token = captured)
    (hd : s.draft = some d) (hsel : d.selector = sel) :
    onResolveSuccess s captured sel ctx =
      { s with
        draft := some
          { d with
            context := ctx
            componentName := extractComponentName ctx
            isContextPending := false } } := by
  unfold onResolveSuccess
  simp [htok, hd, hsel]

theorem onSelect_token (s : ControllerState) (snap : ElementSnapshot) :
    (onSelect s snap).1.token = s.token + 1 ∧ (onSelect s snap).2 = s.token + 1 :=
  ⟨rfl, rfl⟩

theorem onSelect_draft (s : ControllerState) (snap : ElementSnapshot) :
    (onSelect s snap).1.draft = some (selectDraftUpdate snap s.draft) :=
  rfl

theorem selectDraftUpdate_selector (snap : ElementSnapshot)
    (previous : Option FeedbackDraft) :
    (selectDraftUpdate snap previous).selector = snap.selector :=
  rfl

/-- C1: after selection A (token 1) followed by selection B (token 2),
whichever order the two describe calls complete in, the superseded call
for A never mutates the state (its resolution step is the identity), and
the final draft's `context` and `componentName` are those of B's
resolution. -/
theorem draft_race_latest_wins (s0 : ControllerState) (A B : ElementSnapshot)
    (ctxA ctxB : String) :
    let selA := onSelect s0 A
    let selB := onSelect selA.1 B
    let doneB := onResolveSuccess selB.1 selB.2 B.selector ctxB
    let doneA := onResolveSuccess selB.1 selA.2 A.selector ctxA
    onResolveSuccess doneB selA.2 A.selector ctxA = doneB ∧
    doneA = selB.1 ∧
    onResolveSuccess doneA selB.2 B.selector ctxB = doneB ∧
    doneB.draft.map FeedbackDraft.context = some ctxB ∧
    doneB.draft.map FeedbackDraft.componentName =
      some (extractComponentName ctxB) := by
  intro selA selB doneB doneA
  have hstaleTok : doneB.token ≠ selA.2 := by
    have h1 : doneB.token = s0.token + 1 + 1 := onResolveSuccess_token ..
    have h2 : selA.2 = s0.token + 1 := rfl
    omega
  have hstaleTok2 : selB.1.token ≠ selA.2 := by
    have h2 : selA.2 = s0.token + 1 := rfl
    have h3 : selB.1.token = s0.token + 1 + 1 := rfl
    omega
  have hA : doneA = selB.1 := onResolveSuccess_stale _ _ _ _ hstaleTok2
  have hfresh : doneB = { selB.1 with
      draft := some
        { selectDraftUpdate B selA.1.draft with
          context := ctxB
          componentName := extractComponentName ctxB
          isContextPending := false } } :=
    onResolveSuccess_fresh selB.1 selB.2 B.selector ctxB
      (selectDraftUpdate B selA.1.draft) rfl rfl rfl
  refine ⟨onResolveSuccess_stale _ _ _ _ hstaleTok, hA, by rw [hA], ?_, ?_⟩ <;>
    simp [hfresh]

/-- C2: the draft installed on element selection carries the previous
draft's `feedbackText` exactly when a previous draft exists and its
selector equals the new snapshot's selector; otherwise the text is
reset to the empty string. -/
theorem feedbackText_preservation (s : ControllerState) (snap : ElementSnapshot) :
    (∀ p, s.draft = some p → p.selector = snap.selector →
      (onSelect s snap).1.draft.map FeedbackDraft.feedbackText =
        some p.feedbackText) ∧
    (∀ p, s.draft = some p → p.selector ≠ snap.selector →
      (onSelect s snap).1.draft.map FeedbackDraft.feedbackText = some "") ∧
    (s.draft = none →
      (onSelect s snap).1.draft.map FeedbackDraft.feedbackText = some "") := by
  refine ⟨fun p hp hsel => ?_, fun p hp hsel => ?_, fun hp => ?_⟩ <;>
    simp [onSelect, selectDraftUpdate, hp]
  · simp [hsel]
  · simp [hsel]

/-- C5: when the describe call rejects and both staleness checks pass
(captured token still current, installed draft's selector equal to the
snapshot's), the failure continuation clears `isContextPending` and
leaves every other draft field, in particular `context` and
`componentName`, unchanged. -/
theorem failure_clears_pending_only (s : ControllerState) (captured : Nat)
    (snapSelector : String) (d : FeedbackDraft) (htok : s.token = captured)
    (hd : s.draft = some d) (hsel : d.selector = snapSelector) :
    onResolveFailure s captured snapSelector =
      { s with draft := some { d with isContextPending := false } } ∧
    (onResolveFailure s captured snapSelector).draft.map FeedbackDraft.context =
      some d.context ∧
    (onResolveFailure s captured snapSelector).draft.map
      FeedbackDraft.componentName = some d.componentName ∧
    (onResolveFailure s captured snapSelector).draft.map
      FeedbackDraft.isContextPending = some false := by
  have h : onResolveFailure s captured snapSelector =
      { s with draft := some { d with isContextPending := false } } := by
    unfold onResolveFailure
    simp [htok, hd, hsel]
  refine ⟨h, ?_, ?_, ?_⟩ <;> simp [h]

/-! ### Sample data for witnesses -/

def sampleSnapshot : ElementSnapshot :=
  { selector := "div > button.cta"
    elementLabel := "<button> · Primary CTA"
    tagName := "button"
    textPreview := "Primary CTA"
    htmlPreview := "<button>Primary CTA</button>"
    pageUrl := "https://example.test/" }

def sampleDraft : FeedbackDraft :=
  { selector := "div > button.cta"
    elementLabel := "<button> · Primary CTA"
    tagName := "button"
    textPreview := "Primary CTA"
    htmlPreview := "<button>Primary CTA</button>"
    pageUrl := "https://example.test/"
    context := "<button>Primary CTA</button>"
    componentName := some "Button"
    feedbackText := "button color wrong"
    isContextPending := false }

def sampleInput : FeedbackCreateInput :=
  { elementLabel := "<button> · Primary CTA"
    selector := "div > button.cta"
    tagName := "button"
    textPreview := "Primary CTA"
    context := "in Button (at App.tsx:12)"
    pageUrl := "https://example.test/"
    htmlPreview := "<button>Primary CTA</button>"
    feedbackText := "button color wrong"
    componentName := some "Button" }

def sampleRecord : FeedbackRecord :=
  feedbackService.mkRecord sampleInput "fbk_0" 1

theorem feedbackText_preservation_witness :
    (onSelect ⟨some sampleDraft, 3⟩ sampleSnapshot).1.draft.map
      FeedbackDraft.feedbackText = some "button color wrong" :=
  (feedbackText_preservation ⟨some sampleDraft, 3⟩ sampleSnapshot).1
    sampleDraft rfl rfl

theorem failure_clears_pending_only_witness :
    onResolveFailure ⟨some sampleDraft, 7⟩ 7 "div > button.cta" =
      ⟨some { sampleDraft with isContextPending := false }, 7⟩ :=
  (failure_clears_pending_only ⟨some sampleDraft, 7⟩ 7 "div > button.cta"
    sampleDraft rfl rfl rfl).1

/-! ### The feedback store -/

theorem updateFirst_none (id : String) (status : FeedbackStatus) (now : Nat) :
    ∀ rs : List FeedbackRecord, (∀ r ∈ rs, r.id ≠ id) →
      feedbackService.updateFirst id status now rs = none
  | [], _ => rfl
  | r :: rs, h => by
    unfold feedbackService.updateFirst
    rw [if_neg (h r (List.mem_cons_self ..))]
    rw [updateFirst_none id status now rs
      (fun x hx => h x (List.mem_cons_of_mem _ hx))]

/-- C3: updating the status of an id that is not in the store returns
the explicit `null` not-found signal (no exception is modelled: the
operation is total) and leaves the persisted storage content exactly as
it was. -/
theorem updateStatus_not_found (c : StorageContent) (id : String)
    (status : FeedbackStatus) (now : Nat)
    (h : ∀ r ∈ readFromStorage c, r.id ≠ id) :
    feedbackService.updateStatus c id status now = (none, c) := by
  unfold feedbackService.updateStatus
  rw [updateFirst_none id status now _ h]

theorem updateStatus_not_found_witness :
    feedbackService.updateStatus (.records [sampleRecord]) "missing"
      .resolved 99 = (none, .records [sampleRecord]) :=
  updateStatus_not_found (.records [sampleRecord]) "missing" .resolved 99
    (by decide)

/-- C4: every record returned by `create` has status `pending` and equal
`createdAt`/`updatedAt`, and the persisted store holds exactly that
record in front of the previous records. -/
theorem create_pending_persisted (c : StorageContent)
    (input : FeedbackCreateInput) (id : String) (now : Nat) :
    (feedbackService.create c input id now).1.status = .pending ∧
    (feedbackService.create c input id now).1.createdAt =
      (feedbackService.create c input id now).1.updatedAt ∧
    (feedbackService.create c input id now).2 =
      persist ((feedbackService.create c input id now).1 ::
        readFromStorage c) :=
  ⟨rfl, rfl, rfl⟩

/-- C6: starting from an empty store, after one `create(X)` the list
contains exactly one record carrying X's fields plus the generated id,
the timestamps and the pending status; and every `list()` result is
pairwise ordered by `createdAt` descending. -/
theorem list_round_trip_sorted (X : FeedbackCreateInput) (id : String)
    (now : Nat) (c : StorageContent) (hempty : readFromStorage c = []) :
    (∃ r, feedbackService.list (feedbackService.create c X id now).2 = [r] ∧
      r.id = id ∧ r.status = .pending ∧ r.createdAt = now ∧ r.updatedAt = now ∧
      r.elementLabel = X.elementLabel ∧ r.selector = X.selector ∧
      r.tagName = X.tagName ∧ r.textPreview = X.textPreview ∧
      r.context = X.context ∧ r.pageUrl = X.pageUrl ∧
      r.htmlPreview = X.htmlPreview ∧ r.feedbackText = X.feedbackText ∧
      r.componentName = X.componentName) ∧
    (∀ c', (feedbackService.list c').Pairwise createdAtDesc) := by
  constructor
  · refine ⟨feedbackService.mkRecord X id now, ?_, rfl, rfl, rfl, rfl, rfl,
      rfl, rfl, rfl, rfl, rfl, rfl, rfl, rfl⟩
    have hl : feedbackService.list (feedbackService.create c X id now).2 =
        List.insertionSort createdAtDesc
          (feedbackService.mkRecord X id now :: readFromStorage c) := rfl
    rw [hl, hempty]
    rfl
  · intro c'
    exact List.sorted_insertionSort createdAtDesc (readFromStorage c')

theorem list_round_trip_sorted_witness :
    (∃ r, feedbackService.list
        (feedbackService.create .absent sampleInput "fbk_1" 5).2 = [r] ∧
      r.id = "fbk_1" ∧ r.status = .pending ∧ r.createdAt = 5 ∧
      r.updatedAt = 5 ∧
      r.elementLabel = sampleInput.elementLabel ∧
      r.selector = sampleInput.selector ∧
      r.tagName = sampleInput.tagName ∧
      r.textPreview = sampleInput.textPreview ∧
      r.context = sampleInput.context ∧
      r.pageUrl = sampleInput.pageUrl ∧
      r.htmlPreview = sampleInput.htmlPreview ∧
      r.feedbackText = sampleInput.feedbackText ∧
      r.componentName = sampleInput.componentName) ∧
    (∀ c', (feedbackService.list c').Pairwise createdAtDesc) :=
  list_round_trip_sorted sampleInput "fbk_1" 5 .absent rfl

/-- The three degenerate storage outcomes `readFromStorage` recovers
from: no stored value, a value `JSON.parse` throws on, and a parse
result that is not an array. -/
def corruptContent (c : StorageContent) : Prop :=
  c = .absent ∨ c = .unparseable ∨ c = .nonArray

theorem corrupt_readFromStorage (c : StorageContent) (h : corruptContent c) :
    readFromStorage c = [] := by
  rcases h with h | h | h <;> rw [h] <;> rfl

/-- C10: on corrupt or absent storage content every operation treats the
store as empty instead of failing: `list` returns the empty list,
`create` succeeds and persists a singleton list, and `updateStatus`
returns the not-found signal without touching the stored content (all
operations are total functions in the model, so none throws). -/
theorem corrupt_storage_degrades (c : StorageContent) (h : corruptContent c)
    (input : FeedbackCreateInput) (id uid : String) (status : FeedbackStatus)
    (now : Nat) :
    feedbackService.list c = [] ∧
    (feedbackService.create c input id now).2 =
      persist [(feedbackService.create c input id now).1] ∧
    feedbackService.updateStatus c uid status now = (none, c) := by
  have he := corrupt_readFromStorage c h
  refine ⟨?_, ?_, ?_⟩
  · simp [feedbackService.list, he]
  · simp [feedbackService.create, he]
  · simp [feedbackService.updateStatus, he, feedbackService.updateFirst]

theorem corrupt_storage_degrades_witness :
    feedbackService.list .unparseable = [] ∧
    (feedbackService.create .unparseable sampleInput "fbk_2" 9).2 =
      persist [(feedbackService.create .unparseable sampleInput "fbk_2" 9).1] ∧
    feedbackService.updateStatus .unparseable "fbk_0" .resolved 9 =
      (none, .unparseable) :=
  corrupt_storage_degrades .unparseable (Or.inr (Or.inl rfl)) sampleInput
    "fbk_2" "fbk_0" .resolved 9

/-! ### Component-name extraction -/

set_option maxRecDepth 20000

/-- C7 counterexample: `"in Button in <anonymous>"` contains the
substring `"in <anonymous>"`, yet `extractComponentName` returns
`"Button"` (the leftmost match wins), refuting the claim that every
input containing `"in <anonymous>"` yields absent. -/
theorem extract_contains_counterexample :
    List.IsInfix ("in <anonymous>".data) ("in Button in <anonymous>".data) ∧
    extractComponentName "in Button in <anonymous>" = some "Button" :=
  ⟨⟨"in Button ".data, [], by decide⟩, by decide⟩

/-- C7 (amended): the result is decided by the leftmost
`\bin\s+([A-Z][\w.]*)` match, not by mere containment: a context whose
first match is `Button` yields `Button`; the listed `<anonymous>` and
`server`/`Server` contexts yield absent; and no returned candidate is
ever `<anonymous>` or case-insensitively `server`. -/
theorem extract_component_name_spec (context : String) :
    extractComponentName "click in Button now" = some "Button" ∧
    extractComponentName "rendered in <anonymous>" = none ∧
    extractComponentName "rendered in server" = none ∧
    extractComponentName "rendered in Server" = none ∧
    (∀ candidate, extractComponentName context = some candidate →
      candidate ≠ "<anonymous>" ∧ jsToLower candidate ≠ "server") := by
  refine ⟨by decide, by decide, by decide, by decide, ?_⟩
  intro candidate h
  unfold extractComponentName at h
  split at h
  · exact absurd h (by simp)
  · rename_i c0 hfound
    by_cases hc : c0 = "" ∨ c0 = "<anonymous>" ∨ jsToLower c0 = "server"
    · rw [if_pos hc] at h; exact absurd h (by simp)
    · rw [if_neg hc] at h
      have hcand : c0 = candidate := Option.some.inj h
      push_neg at hc
      exact ⟨hcand ▸ hc.2.1, hcand ▸ hc.2.2⟩

theorem extract_component_name_spec_witness :
    "Button" ≠ "<anonymous>" ∧ jsToLower "Button" ≠ "server" :=
  (extract_component_name_spec "click in Button now").2.2.2.2 "Button"
    (extract_component_name_spec "click in Button now").1

/-! ### Snapshot preview bounds -/

/-- An element whose collapsed text content has 121 characters. -/
def overlongTextElem : Elem :=
  .node (some "div") none (some (String.mk (List.replicate 121 'a'))) none

/-- C8 counterexample: a text content of 121 characters yields a
`textPreview` of 123 characters (120 kept plus the 3-character
ellipsis), exceeding the claimed 120-character bound. -/
theorem snapshot_preview_counterexample :
    120 < ((createElementSnapshot overlongTextElem
      "https://example.test/").textPreview).length := by decide

/-- C8 (amended): `textPreview` has at most 123 characters (120 plus
the ellipsis) and `htmlPreview` at most 403 characters (400 plus the
ellipsis), except that an element without usable `outerHTML` gets the
synthetic `<tag />` string of length `tag.length + 4`. -/
theorem snapshot_preview_bounds (e : Elem) (url : String) :
    (createElementSnapshot e url).textPreview.length ≤ 123 ∧
    (createElementSnapshot e url).htmlPreview.length ≤
      max 403 ((tagLowerUnknown e).length + 4) := by
  constructor
  · show (snapshotTextPreview e).length ≤ 123
    unfold snapshotTextPreview
    split
    · rw [String.length_append, String.length_mk, List.length_take]
      have : ("..." : String).length = 3 := rfl
      omega
    · omega
  · show (snapshotHtmlPreview e).length ≤ max 403 ((tagLowerUnknown e).length + 4)
    unfold snapshotHtmlPreview
    have hell : ("..." : String).length = 3 := rfl
    have hsynth : ("<" ++ tagLowerUnknown e ++ " />").length =
        (tagLowerUnknown e).length + 4 := by
      rw [String.length_append, String.length_append]
      have h1 : ("<" : String).length = 1 := rfl
      have h2 : (" />" : String).length = 3 := rfl
      omega
    cases hhp : e.htmlProps with
    | none =>
      simp only [hhp]
      rw [hsynth]
      exact le_max_right ..
    | some h =>
      simp only [hhp]
      by_cases hne : h.outerHTML ≠ ""
      · rw [if_pos hne]
        by_cases hlen : h.outerHTML.length > 400
        · rw [if_pos hlen, String.length_append, String.length_mk,
            List.length_take]
          refine le_trans ?_ (le_max_left ..)
          have hmin : min 400 h.outerHTML.data.length ≤ 400 :=
            Nat.min_le_left ..
          omega
        · rw [if_neg hlen]
          refine le_trans ?_ (le_max_left (403 : Nat) _)
          omega
      · rw [if_neg hne, hsynth]
        exact le_max_right ..

/-! ### Selector builder -/

/-- The element with its ancestor chain cut after `n` further parent
levels; used to state how many ancestor levels `buildSelector`
inspects. -/
def truncateElem : Nat → Elem → Elem
  | 0, .node t hp tc _ => .node t hp tc none
  | n + 1, .node t hp tc parent => .node t hp tc (parent.map (truncateElem n))

theorem selectorParts_truncate :
    ∀ (n : Nat) (e : Elem),
      selectorParts (truncateElem n e) (n + 1) = selectorParts e (n + 1)
  | 0, .node t hp tc parent => by
    cases hp <;> cases parent <;>
      simp [truncateElem, selectorParts]
  | n + 1, .node t hp tc parent => by
    cases hp with
    | none =>
      cases parent with
      | none => rfl
      | some p =>
        simp only [truncateElem, Option.map_some, selectorParts]
        rw [selectorParts_truncate n p]
    | some h =>
      cases parent with
      | none => rfl
      | some p =>
        simp only [truncateElem, Option.map_some, selectorParts]
        rw [selectorParts_truncate n p]

theorem selectorParts_length_le :
    ∀ (e : Elem) (n : Nat), (selectorParts e n).length ≤ n
  | .node _ _ _ _, 0 => Nat.le_refl 0
  | .node t hp tc parent, n + 1 => by
    cases hp with
    | none =>
      cases parent with
      | none => simp [selectorParts]
      | some p =>
        simp only [selectorParts, List.length_cons]
        have := selectorParts_length_le p n
        omega
    | some h =>
      by_cases hid : h.id ≠ ""
      · unfold selectorParts
        dsimp only
        rw [if_pos hid]
        simp
      · cases parent with
        | none => simp [selectorParts, hid]
        | some p =>
          simp only [selectorParts, if_neg hid, List.length_cons]
          have := selectorParts_length_le p n
          omega

theorem selectorParts_head (t : Option String) (hp : Option HtmlProps)
    (tc : Option String) (parent : Option Elem) (n : Nat) :
    ∃ p l, selectorParts (.node t hp tc parent) (n + 1) = p :: l ∧
      ((t.map jsToLower).getD "").length ≤ p.length := by
  unfold selectorParts
  cases hp with
  | none =>
    exact ⟨_, _, rfl, Nat.le_refl _⟩
  | some h =>
    by_cases hid : h.id ≠ ""
    · simp only [if_pos hid]
      refine ⟨_, _, rfl, ?_⟩
      rw [String.length_append, String.length_append]
      omega
    · simp only [if_neg hid]
      refine ⟨_, _, rfl, ?_⟩
      rw [String.length_append]
      omega

theorem length_le_joinSep (sep : String) :
    ∀ (l : List String) (s : String), s ∈ l → s.length ≤ (joinSep sep l).length
  | [], s, h => absurd h (List.not_mem_nil s)
  | [x], s, h => by
    rw [List.mem_singleton] at h
    rw [h]
    exact Nat.le_refl _
  | x :: y :: rest, s, h => by
    rcases List.mem_cons.mp h with h1 | h2
    · subst h1
      show s.length ≤ (s ++ sep ++ joinSep sep (y :: rest)).length
      rw [String.length_append, String.length_append]
      omega
    · have := length_le_joinSep sep (y :: rest) s h2
      show s.length ≤ (x ++ sep ++ joinSep sep (y :: rest)).length
      rw [String.length_append, String.length_append]
      omega

theorem length_jsToLower (s : String) : (jsToLower s).length = s.length := by
  show (s.data.map Char.toLower).length = s.length
  rw [List.length_map]
  rfl

/-- C9: the selector builder collects at most five parts, its result
only depends on the first five ancestor levels (self included), an
element with a non-empty tag name yields a non-empty selector, and a
node exposing a non-empty id contributes `tag#id` as the only part —
the ancestor walk stops there. -/
theorem selector_depth_and_shape (e : Elem) :
    (selectorParts e 5).length ≤ 5 ∧
    buildSelector (truncateElem 4 e) = buildSelector e ∧
    (∀ t, e.tagName = some t → t ≠ "" → buildSelector e ≠ "") ∧
    (∀ t hp tc parent n, hp.id ≠ "" →
      selectorParts (.node t (some hp) tc parent) (n + 1) =
        [((t.map jsToLower).getD "") ++ "#" ++ hp.id] ∧
      buildSelector (.node t (some hp) tc parent) =
        ((t.map jsToLower).getD "") ++ "#" ++ hp.id) := by
  refine ⟨selectorParts_length_le e 5, ?_, ?_, ?_⟩
  · unfold buildSelector
    rw [selectorParts_truncate 4 e]
  · intro t ht hne
    cases e with
    | node t0 hp tc parent =>
      simp only [Elem.tagName] at ht
      subst ht
      obtain ⟨p, l, hparts, hlen⟩ := selectorParts_head (some t) hp tc parent 4
      have htpos : 0 < t.length := by
        rcases Nat.eq_zero_or_pos t.length with h0 | h0
        · exfalso
          apply hne
          cases t with
          | mk d =>
            have : d.length = 0 := h0
            rw [List.length_eq_zero] at this
            rw [this]
        · exact h0
      have hlow : (((some t).map jsToLower).getD "").length = t.length := by
        show (jsToLower t).length = t.length
        exact length_jsToLower t
      have hmem : p ∈ (selectorParts (.node (some t) hp tc parent) 5).reverse := by
        rw [hparts]
        exact List.mem_reverse.mpr (List.mem_cons_self ..)
      have hjoin := length_le_joinSep " > " _ p hmem
      intro hcontra
      unfold buildSelector at hcontra
      rw [hcontra] at hjoin
      have : ("" : String).length = 0 := rfl
      omega
  · intro t hp tc parent n hid
    constructor
    · unfold selectorParts
      dsimp only
      rw [if_pos hid]
    · unfold buildSelector
      have hparts : selectorParts (.node t (some hp) tc parent) 5 =
          [((t.map jsToLower).getD "") ++ "#" ++ hp.id] := by
        unfold selectorParts
        dsimp only
        rw [if_pos hid]
      rw [hparts]
      rfl

theorem selector_depth_and_shape_witness :
    buildSelector (.node (some "DIV") (some ⟨"root", [], "<div/>"⟩) none none)
        ≠ "" ∧
    buildSelector (.node (some "DIV") (some ⟨"root", [], "<div/>"⟩) none none)
        = "div" ++ "#" ++ "root" :=
  ⟨(selector_depth_and_shape
      (.node (some "DIV") (some ⟨"root", [], "<div/>"⟩) none none)).2.2.1
      "DIV" rfl (by decide),
   ((selector_depth_and_shape
      (.node (some "DIV") (some ⟨"root", [], "<div/>"⟩) none none)).2.2.2
      (some "DIV") ⟨"root", [], "<div/>"⟩ none none 0 (by decide)).2⟩

end ReactGrab
